import Mathlib

/-
Shallow embedding of the rustitor terminal editor (src/main.rs).

Strings are modelled as lists: `List Char` for the row/editor level
(where the claims are about sequence structure), and `List Nat` of UTF-8
bytes for the places where Rust's byte-indexed `String` operations are
what a claim is about.  Terminal input is a finite list of read results,
each `some b` (a byte arrived) or `none` (the VTIME read timed out and
returned zero bytes, which the Rust code observes as the byte 0).
-/

def TAB_STOP : Nat := 8

/-- `enum InputSeq` (main.rs lines 67-81). -/
inductive InputSeq where
  | Unidentified
  | Key (b : Nat) (ctrl : Bool)
  | LeftKey
  | RightKey
  | UpKey
  | DownKey
  | PageUpKey
  | PageDownKey
  | HomeKey
  | EndKey
  | DeleteKey
  | Cursor (r : Nat) (c : Nat)
deriving DecidableEq, Repr

/-- `InputSequences::read` (lines 89-93): a bounded-wait read; a timed-out
read leaves the buffer byte 0.  Reading past the end of the modelled
stream also yields 0 (the terminal stays silent). -/
def readByte : List (Option Nat) → Nat × List (Option Nat)
  | [] => (0, [])
  | none :: t => (0, t)
  | some b :: t => (b, t)

/-- The terminator set of the CSI accumulation loop (lines 121-122):
A B C D F H K J R c f g h l m n q y ~ . -/
def isCsiTerminator (b : Nat) : Bool :=
  b = 65 || b = 66 || b = 67 || b = 68 || b = 70 || b = 72 || b = 75 ||
  b = 74 || b = 82 || b = 99 || b = 102 || b = 103 || b = 104 || b = 108 ||
  b = 109 || b = 110 || b = 113 || b = 121 || b = 126

/-- The CSI accumulation loop (lines 117-133).  `afterO = true` means the
previous byte was `'O'` (79) and we are reading the second byte of the
two-byte alternate escape.  `read_blocking` (lines 95-102) retries empty
reads, so `none` entries are skipped; an exhausted stream means
`read_blocking` spins forever, modelled as `none`. -/
def csiLoop : Bool → List Nat → List (Option Nat) →
    Option (Nat × List Nat × List (Option Nat))
  | _, _, [] => none
  | afterO, buf, none :: t => csiLoop afterO buf t
  | false, buf, some b :: t =>
    if isCsiTerminator b then some (b, buf, t)
    else if b = 79 then csiLoop true (buf ++ [79]) t
    else csiLoop false (buf ++ [b]) t
  | true, buf, some b :: t =>
    if b = 70 || b = 72 then some (b, buf, t)
    else csiLoop false (buf ++ [b]) t

/-- `buf.split(|b| *b == b';')` (line 135): split a byte slice on a
separator; an empty slice yields one empty piece, as Rust's
`slice::split` does. -/
def splitOnByte (sep : Nat) : List Nat → List (List Nat)
  | [] => [[]]
  | b :: t =>
    if b = sep then [] :: splitOnByte sep t
    else
      match splitOnByte sep t with
      | [] => [[b]]
      | h :: r => (b :: h) :: r

/-- `str::from_utf8(b).ok().and_then(|s| s.parse::<usize>().ok())`
(line 139): an optional `'+'` sign followed by at least one ASCII digit,
valid as a 64-bit usize; anything else (including bytes that are not
valid UTF-8, which can never be digits) parses to `none`. -/
def parseUsize (bs : List Nat) : Option Nat :=
  let ds := if bs.head? = some 43 then bs.tail else bs
  if ds ≠ [] ∧ ds.all (fun b => 48 ≤ b && b ≤ 57) then
    let v := ds.foldl (fun a b => a * 10 + (b - 48)) 0
    if v < 2 ^ 64 then some v else none
  else none

/-- The `match cmd` dispatch of the CSI terminator (lines 136-163).
`none` models the `unreachable!()` arm, i.e. a panic. -/
def dispatchCsi (cmd : Nat) (buf : List Nat) : Option InputSeq :=
  let args := splitOnByte 59 buf
  if cmd = 82 then
    let i := args.map parseUsize
    match i[0]?, i[1]? with
    | some (some r), some (some c) => some (InputSeq.Cursor r c)
    | _, _ => some InputSeq.Unidentified
  else if cmd = 65 then some InputSeq.UpKey
  else if cmd = 66 then some InputSeq.DownKey
  else if cmd = 67 then some InputSeq.RightKey
  else if cmd = 68 then some InputSeq.LeftKey
  else if cmd = 126 then
    match args[0]? with
    | some [53] => some InputSeq.PageUpKey
    | some [54] => some InputSeq.PageDownKey
    | some [49] => some InputSeq.HomeKey
    | some [55] => some InputSeq.HomeKey
    | some [52] => some InputSeq.EndKey
    | some [56] => some InputSeq.EndKey
    | some [51] => some InputSeq.DeleteKey
    | _ => some InputSeq.Unidentified
  else if cmd = 72 then some InputSeq.HomeKey
  else if cmd = 70 then some InputSeq.EndKey
  else none

/-- Outcome of `InputSequences::decode`: a produced event together with
the value stored into the `next_byte` pushback field (0 = nothing pushed
back, matching the Rust sentinel) and the remaining input stream;
`panicked` models reaching `unreachable!()`; `diverged` models
`read_blocking` spinning forever on a silent stream. -/
inductive DecodeResult where
  | ok (seq : InputSeq) (pushback : Nat) (rest : List (Option Nat))
  | panicked
  | diverged
deriving DecidableEq, Repr

/-- `InputSequences::decode` (lines 104-169). -/
def decode (b : Nat) (input : List (Option Nat)) : DecodeResult :=
  if b = 27 then
    let r := readByte input
    if r.1 = 91 then
      match csiLoop false [] r.2 with
      | none => DecodeResult.diverged
      | some (cmd, buf, rest) =>
        match dispatchCsi cmd buf with
        | some seq => DecodeResult.ok seq 0 rest
        | none => DecodeResult.panicked
    else if r.1 = 0 then DecodeResult.ok (InputSeq.Key 27 false) 0 r.2
    else DecodeResult.ok (InputSeq.Key 27 false) r.1 r.2
  else if 32 ≤ b ∧ b ≤ 127 then DecodeResult.ok (InputSeq.Key b false) 0 input
  else if 1 ≤ b ∧ b ≤ 31 then DecodeResult.ok (InputSeq.Key (b ||| 96) true) 0 input
  else DecodeResult.ok InputSeq.Unidentified 0 input

/-- `struct Row` (lines 220-223), content as Unicode scalar values. -/
structure Row where
  buf : List Char
  render : List Char
deriving DecidableEq, Repr

/-- One step of `Row::update_render`'s loop body (lines 245-258): a tab
pads with spaces until the render column reaches the next multiple of
`TAB_STOP` (the inner do-while pushes `TAB_STOP - index % TAB_STOP`
spaces), any other character is copied. -/
def renderAcc (acc : List Char × Nat) (c : Char) : List Char × Nat :=
  if c = '\t' then
    (acc.1 ++ List.replicate (TAB_STOP - acc.2 % TAB_STOP) ' ', acc.2 + (TAB_STOP - acc.2 % TAB_STOP))
  else (acc.1 ++ [c], acc.2 + 1)

/-- `Row::update_render` (lines 242-259), as the render string it produces. -/
def updateRender (buf : List Char) : List Char :=
  (buf.foldl renderAcc ([], 0)).1

/-- `Row::new` (lines 226-233). -/
def Row.new (line : List Char) : Row :=
  { buf := line, render := updateRender line }

/-- `Row::empty` (lines 235-240). -/
def Row.empty : Row :=
  { buf := [], render := [] }

/-- The fold step of `Row::rx_from_cx` (lines 262-268). -/
def rxStep (rx : Nat) (ch : Char) : Nat :=
  if ch = '\t' then rx + TAB_STOP - rx % TAB_STOP else rx + 1

/-- `Row::rx_from_cx` (lines 261-269). -/
def Row.rx_from_cx (r : Row) (cx : Nat) : Nat :=
  (r.buf.take cx).foldl rxStep 0

/-- `Row::insert_char` (lines 271-278), at the character level. -/
def Row.insert_char (r : Row) (at_ : Nat) (c : Char) : Row :=
  let buf :=
    if r.buf.length ≤ at_ then r.buf ++ [c]
    else r.buf.take at_ ++ c :: r.buf.drop at_
  { buf := buf, render := updateRender buf }

/-- `Row::delete_char` (lines 280-285). -/
def Row.delete_char (r : Row) (at_ : Nat) : Row :=
  if at_ < r.buf.length then
    let buf := r.buf.take at_ ++ r.buf.drop (at_ + 1)
    { buf := buf, render := updateRender buf }
  else r

/-- `Row::append` (lines 287-294). -/
def Row.append (r : Row) (s : List Char) : Row :=
  if s = [] then r
  else { buf := r.buf ++ s, render := updateRender (r.buf ++ s) }

/-- `Row::truncate` (lines 296-301). -/
def Row.truncate (r : Row) (at_ : Nat) : Row :=
  if at_ < r.buf.length then
    { buf := r.buf.take at_, render := updateRender (r.buf.take at_) }
  else r

/-- `enum CursorDir` (lines 304-309). -/
inductive CursorDir where
  | Left
  | Right
  | Up
  | Down
deriving DecidableEq, Repr

/-- `struct Editor` (lines 311-329).  `file` keeps only the display
string of the optional `FilePath`; `message` keeps only the text of the
`StatusMessage` (its timestamp matters only for the 5-second display
TTL, which no modelled operation reads). -/
structure Editor where
  file : Option String
  cx : Nat
  cy : Nat
  rx : Nat
  screen_rows : Nat
  screen_cols : Nat
  row : List Row
  rowoff : Nat
  coloff : Nat
  message : String
  dirty : Bool
  quitting : Bool
deriving DecidableEq, Repr

/-- `Editor::setup_scroll` (lines 504-526). -/
def Editor.setup_scroll (e : Editor) : Editor :=
  let rx := if e.cy < e.row.length then (e.row.getD e.cy Row.empty).rx_from_cx e.cx else 0
  let rowoff1 := if e.cy < e.rowoff then e.cy else e.rowoff
  let rowoff2 := if e.cy ≥ rowoff1 + e.screen_rows then e.cy - e.screen_rows + 1 else rowoff1
  let coloff1 := if rx < e.coloff then rx else e.coloff
  let coloff2 := if rx ≥ coloff1 + e.screen_cols then rx - e.screen_cols + 1 else coloff1
  { e with rx := rx, rowoff := rowoff2, coloff := coloff2 }

/-- `Editor::insert_char` (lines 528-535). -/
def Editor.insert_char (e : Editor) (ch : Char) : Editor :=
  let e1 := if e.cy = e.row.length then { e with row := e.row ++ [Row.empty] } else e
  { e1 with
    row := e1.row.set e1.cy ((e1.row.getD e1.cy Row.empty).insert_char e1.cx ch),
    cx := e1.cx + 1,
    dirty := true }

/-- `Editor::delete_char` (lines 537-551).  In the join branch `cx` is
read from row `cy - 1` before the removal, exactly as in the source. -/
def Editor.delete_char (e : Editor) : Editor :=
  if e.cy = e.row.length ∨ (e.cx = 0 ∧ e.cy = 0) then e
  else if e.cx > 0 then
    { e with
      row := e.row.set e.cy ((e.row.getD e.cy Row.empty).delete_char (e.cx - 1)),
      cx := e.cx - 1,
      dirty := true }
  else
    let cx1 := (e.row.getD (e.cy - 1) Row.empty).buf.length
    let removed := e.row.getD e.cy Row.empty
    let row1 := e.row.take e.cy ++ e.row.drop (e.cy + 1)
    { e with
      cx := cx1,
      cy := e.cy - 1,
      row := row1.set (e.cy - 1) ((row1.getD (e.cy - 1) Row.empty).append removed.buf),
      dirty := true }

/-- `Editor::insert_line` (lines 553-565).  Note the source never sets
the dirty flag here. -/
def Editor.insert_line (e : Editor) : Editor :=
  if e.cy ≥ e.row.length then
    { e with row := e.row ++ [Row.new []], cy := e.cy + 1, cx := 0 }
  else if e.cx ≥ (e.row.getD e.cy Row.empty).buf.length then
    { e with
      row := e.row.take (e.cy + 1) ++ Row.new [] :: e.row.drop (e.cy + 1),
      cy := e.cy + 1, cx := 0 }
  else
    let split := (e.row.getD e.cy Row.empty).buf.drop e.cx
    let row1 := e.row.set e.cy ((e.row.getD e.cy Row.empty).truncate e.cx)
    { e with
      row := row1.take (e.cy + 1) ++ Row.new split :: row1.drop (e.cy + 1),
      cy := e.cy + 1, cx := 0 }

/-- `Editor::move_cursor` (lines 567-599), including the final clamp of
`cx` to the length of the (possibly new) current row. -/
def Editor.move_cursor (e : Editor) (dir : CursorDir) : Editor :=
  let e1 :=
    match dir with
    | CursorDir.Up => { e with cy := e.cy - 1 }
    | CursorDir.Left =>
      if e.cx > 0 then { e with cx := e.cx - 1 }
      else if e.cy > 0 then
        { e with cy := e.cy - 1, cx := (e.row.getD (e.cy - 1) Row.empty).buf.length }
      else e
    | CursorDir.Down =>
      if e.cy < e.row.length then { e with cy := e.cy + 1 } else e
    | CursorDir.Right =>
      if e.cy < e.row.length then
        if e.cx < (e.row.getD e.cy Row.empty).buf.length then { e with cx := e.cx + 1 }
        else { e with cy := e.cy + 1, cx := 0 }
      else e
  let len : Nat := ((e1.row[e1.cy]?).map (fun r => r.buf.length)).getD 0
  if e1.cx > len then { e1 with cx := len } else e1

/-- `Editor::save` (lines 480-502), as a pure function: the second
component is the byte stream written to the file (`none` when no file
is associated and nothing is written).  Byte counting follows the
source's loop: each row contributes its content plus one newline. -/
def Editor.save (e : Editor) : Editor × Option (List Char) :=
  match e.file with
  | none => ({ e with message := "Cannot save unnamed buffer" }, none)
  | some display =>
    let out := e.row.foldl (fun acc r => acc ++ r.buf ++ ['\n']) []
    let bytes := e.row.foldl (fun n r => n + (r.buf.length + 1)) 0
    ({ e with
        message := toString bytes ++ " bytes written to " ++ display,
        dirty := false },
      some out)

/-- The warning installed by the quit branch (lines 636-637). -/
def quitWarning : String := "File has unsaved changes! Press Ctrl-Q again to quit"

/-- The common fall-through of `process_keypress` (lines 652-653):
`self.quitting = false; Ok(false)`. -/
def Editor.finishKey (e : Editor) : Option (Editor × Bool) :=
  some ({ e with quitting := false }, false)

/-- The repeated single-step moves of the PageUp/PageDown arms
(lines 610-612 and 616-618). -/
def Editor.repeatMove (e : Editor) (dir : CursorDir) : Nat → Editor
  | 0 => e
  | n + 1 => (e.move_cursor dir).repeatMove dir n

/-- `Editor::process_keypress` (lines 601-654).  The returned Bool is
the `Ok(..)` payload: `true` breaks the main loop.  `none` models the
`unreachable!()` arm reached by `Unidentified` and `Cursor` events. -/
def Editor.process_keypress (e : Editor) (seq : InputSeq) : Option (Editor × Bool) :=
  match seq with
  | InputSeq.Key 112 true | InputSeq.UpKey => (e.move_cursor CursorDir.Up).finishKey
  | InputSeq.Key 98 true | InputSeq.LeftKey => (e.move_cursor CursorDir.Left).finishKey
  | InputSeq.Key 110 true | InputSeq.DownKey => (e.move_cursor CursorDir.Down).finishKey
  | InputSeq.Key 102 true | InputSeq.RightKey => (e.move_cursor CursorDir.Right).finishKey
  | InputSeq.PageUpKey =>
    (({ e with cy := e.rowoff }).repeatMove CursorDir.Up e.screen_rows).finishKey
  | InputSeq.PageDownKey =>
    (({ e with cy := min (e.rowoff + e.screen_rows - 1) e.row.length }).repeatMove
        CursorDir.Down e.screen_rows).finishKey
  | InputSeq.Key 97 true | InputSeq.HomeKey => ({ e with cx := 0 }).finishKey
  | InputSeq.Key 101 true | InputSeq.EndKey =>
    (if e.cy < e.row.length then { e with cx := e.screen_cols - 1 } else e).finishKey
  | InputSeq.DeleteKey | InputSeq.Key 100 true =>
    ((e.move_cursor CursorDir.Right).delete_char).finishKey
  | InputSeq.Key 113 true =>
    if e.quitting then some (e, true)
    else some ({ e with quitting := true, message := quitWarning }, false)
  | InputSeq.Key 13 false | InputSeq.Key 109 true => e.insert_line.finishKey
  | InputSeq.Key 104 true | InputSeq.Key 8 false | InputSeq.Key 127 false =>
    e.delete_char.finishKey
  | InputSeq.Key 108 true | InputSeq.Key 27 false => e.finishKey
  | InputSeq.Key 115 true => (e.save).1.finishKey
  | InputSeq.Key b false => (e.insert_char (Char.ofNat b)).finishKey
  | InputSeq.Key _ _ => e.finishKey
  | InputSeq.Unidentified => none
  | InputSeq.Cursor _ _ => none

/-- The event loop of `Editor::run` (lines 688-698) over a finite event
list: `Unidentified` events are skipped, a `true` from
`process_keypress` breaks, otherwise the scroll is adjusted and the
loop continues (the screen repaint is pure I/O and is omitted).
`none` models a propagated panic. -/
def Editor.runList (e : Editor) : List InputSeq → Option Editor
  | [] => some e
  | seq :: rest =>
    if seq = InputSeq.Unidentified then e.runList rest
    else
      match e.process_keypress seq with
      | none => none
      | some (e1, true) => some e1
      | some (e1, false) => (e1.setup_scroll).runList rest

/-- Rust's `str::is_char_boundary` on a UTF-8 byte string: position 0,
the end, or a byte that is not a continuation byte (`b as i8 >= -64`,
i.e. below 0x80 or at least 0xC0). -/
def isCharBoundary (l : List Nat) (i : Nat) : Bool :=
  i = 0 || i = l.length ||
    (match l[i]? with
     | some b => decide (b < 128 ∨ 192 ≤ b)
     | none => false)

/-- `Row::insert_char` (lines 271-278) at Rust's byte level: `buf.len()`
and the `at` index of `String::insert` are byte offsets, and
`String::insert` panics (`none`) when the offset is not a character
boundary.  `c` is the UTF-8 encoding of the inserted character. -/
def insertCharBytes (buf : List Nat) (at_ : Nat) (c : List Nat) : Option (List Nat) :=
  if buf.length ≤ at_ then some (buf ++ c)
  else if isCharBoundary buf at_ then some (buf.take at_ ++ c ++ buf.drop at_)
  else none

/-- The in-row step of `move_cursor` for `Right` (lines 583-592) at
Rust's byte level: on a valid row the cursor column advances by one
whenever it is below `buf.len()`, the byte length. -/
def moveRightBytes (buf : List Nat) (cx : Nat) : Nat :=
  if cx < buf.length then cx + 1 else cx

/-- The number of Unicode scalar values of a UTF-8 byte string: the
count of its non-continuation bytes. -/
def scalarCount (l : List Nat) : Nat :=
  (l.filter (fun b => decide (b < 128 ∨ 192 ≤ b))).length

/-- A concrete editor state as built by `Editor::new` (lines 332-348)
for an 80-column terminal reporting 26 rows. -/
def baseEditor : Editor :=
  { file := none, cx := 0, cy := 0, rx := 0, screen_rows := 24, screen_cols := 80,
    row := [], rowoff := 0, coloff := 0,
    message := "HELP: Ctrl-S = save | Ctrl-Q = quit", dirty := false, quitting := false }

/-- `baseEditor` holding the single row "ab" with the cursor inside it. -/
def edRowAB : Editor := { baseEditor with row := [Row.new ['a', 'b']], cx := 1 }

/-- A narrow-screen editor holding the single row "ab", cursor at the
origin. -/
def edEndKey : Editor := { baseEditor with row := [Row.new ['a', 'b']], screen_cols := 10 }

/-- Claim C1: the spec says malformed or unrecognized escape sequences
always degrade to `Unidentified`, but the CSI accumulation loop accepts
the terminators `m`, `J` and `n` (among others) that the dispatch match
does not handle, so `ESC [ m`, `ESC [ J` and `ESC [ n` reach the
`unreachable!()` arm and panic instead.  The dispatcher half of the
claim does hold: the run loop drops `Unidentified` events without any
state change. -/
theorem csi_terminator_panics :
    decode 27 [some 91, some 109] = DecodeResult.panicked ∧
    decode 27 [some 91, some 74] = DecodeResult.panicked ∧
    decode 27 [some 91, some 110] = DecodeResult.panicked ∧
    ∀ (e : Editor) (rest : List InputSeq),
      e.runList (InputSeq.Unidentified :: rest) = e.runList rest := by
  refine ⟨by decide, by decide, by decide, ?_⟩
  intro e rest
  simp [Editor.runList]

/-- Claim C2: the quit branch never consults the dirty flag.  With a
clean buffer and the confirm state unarmed, Ctrl-Q does not terminate
the loop: it arms the confirm state and installs the unsaved-changes
warning; a quit while armed does terminate, and a quit while dirty and
unarmed arms exactly as the claim says. -/
theorem quit_clean_buffer_not_terminated :
    baseEditor.dirty = false ∧
    baseEditor.quitting = false ∧
    baseEditor.process_keypress (InputSeq.Key 113 true) =
      some ({ baseEditor with quitting := true, message := quitWarning }, false) ∧
    ({ baseEditor with quitting := true }).process_keypress (InputSeq.Key 113 true) =
      some ({ baseEditor with quitting := true }, true) ∧
    ({ baseEditor with dirty := true }).process_keypress (InputSeq.Key 113 true) =
      some ({ baseEditor with dirty := true, quitting := true, message := quitWarning },
        false) := by
  decide

/-- Claim C3: `insert_line` mutates the buffer (here it splits "ab"
into "a" and "b") yet leaves the dirty flag false, while character
insert and delete do set it. -/
theorem insert_line_leaves_dirty_false :
    edRowAB.dirty = false ∧
    (edRowAB.insert_line).row.map Row.buf = [['a'], ['b']] ∧
    (edRowAB.insert_line).dirty = false ∧
    (edRowAB.insert_char 'x').dirty = true ∧
    (edRowAB.delete_char).dirty = true := by
  decide

/-- Claim C4, counterexample: on the row "ab" (length 2) with 10 screen
columns, the End key sets `cx` to 9 (`screen_cols - 1`), not to the row
length 2. -/
theorem end_key_counterexample :
    edEndKey.process_keypress InputSeq.EndKey = some ({ edEndKey with cx := 9 }, false) ∧
    edEndKey.row.map (fun r => r.buf.length) = [2] ∧
    (9 : Nat) ≠ 2 := by
  decide

/-- Claim C4, as amended: for every editor whose cursor row is a valid
row index (and a positive screen width), End or Ctrl-E sets the cursor
column to `screen_cols - 1`, the last screen column, regardless of the
row's length. -/
theorem end_key_sets_screen_col (e : Editor) (h : e.cy < e.row.length)
    (hc : 1 ≤ e.screen_cols) :
    e.process_keypress InputSeq.EndKey =
      some ({ e with cx := e.screen_cols - 1, quitting := false }, false) ∧
    e.process_keypress (InputSeq.Key 101 true) =
      some ({ e with cx := e.screen_cols - 1, quitting := false }, false) := by
  constructor <;>
    · show (if e.cy < e.row.length then { e with cx := e.screen_cols - 1 } else e).finishKey = _
      rw [if_pos h]
      rfl

/-- Claim C4, witness for the amended statement at a concrete input. -/
theorem end_key_sets_screen_col_witness :
    edEndKey.process_keypress InputSeq.EndKey =
      some ({ edEndKey with cx := edEndKey.screen_cols - 1, quitting := false }, false) ∧
    edEndKey.process_keypress (InputSeq.Key 101 true) =
      some ({ edEndKey with cx := edEndKey.screen_cols - 1, quitting := false }, false) :=
  end_key_sets_screen_col edEndKey (by decide) (by decide)

/-- Claim C5: the claim says row mutation never panics for any cursor
column at most the number of Unicode scalar values of the row, because
columns count characters.  In the code they count bytes: on the row
"é" (UTF-8 bytes 195, 169, a single scalar value) one Right step puts
the cursor at column 1 ≤ 1, and inserting 'a' there calls
`String::insert` at byte offset 1, which is not a character boundary
and panics. -/
theorem multibyte_insert_char_panics :
    scalarCount [195, 169] = 1 ∧
    moveRightBytes [195, 169] 0 = 1 ∧
    moveRightBytes [195, 169] 0 ≤ scalarCount [195, 169] ∧
    insertCharBytes [195, 169] 1 [97] = none := by
  decide

/-- Claim C9: the concrete decodings demanded by the spec, and the
general control-byte rule: `ESC [ 1 ; 5 R` is the cursor-position
report (1,5); a bare escape whose follow-up read times out is the plain
escape key; `ESC [ 3 ~` is Delete; `ESC [ A` is Up; and every control
byte 0x01-0x1F other than escape maps to its lowercase letter with the
ctrl flag set. -/
theorem decode_key_events :
    decode 27 [some 91, some 49, some 59, some 53, some 82] =
      DecodeResult.ok (InputSeq.Cursor 1 5) 0 [] ∧
    decode 27 [none] = DecodeResult.ok (InputSeq.Key 27 false) 0 [] ∧
    decode 27 [some 91, some 51, some 126] = DecodeResult.ok InputSeq.DeleteKey 0 [] ∧
    decode 27 [some 91, some 65] = DecodeResult.ok InputSeq.UpKey 0 [] ∧
    ∀ (b : Nat) (input : List (Option Nat)), 1 ≤ b → b ≤ 31 → b ≠ 27 →
      decode b input = DecodeResult.ok (InputSeq.Key (b ||| 96) true) 0 input := by
  refine ⟨by decide, by decide, by decide, by decide, ?_⟩
  intro b input h1 h2 h3
  unfold decode
  rw [if_neg h3, if_neg (by omega), if_pos (by exact ⟨h1, h2⟩)]

/-- Claim C9, witness: Ctrl-Q (byte 17) decodes to `Key(17 | 0x60, true)`,
that is Key('q', ctrl). -/
theorem decode_key_events_witness :
    decode 17 [] = DecodeResult.ok (InputSeq.Key (17 ||| 96) true) 0 [] :=
  decode_key_events.2.2.2.2 17 [] (by decide) (by decide) (by decide)

/-- Claim C6: after `setup_scroll` the cursor row lies inside
`[rowoff, rowoff + screen_rows)` and the render column inside
`[coloff, coloff + screen_cols)`, and an offset is left untouched
whenever the cursor was already inside the window along that axis. -/
theorem setup_scroll_viewport_invariant (e : Editor)
    (hr : 0 < e.screen_rows) (hc : 0 < e.screen_cols) :
    ((e.setup_scroll).rowoff ≤ e.cy ∧
      e.cy < (e.setup_scroll).rowoff + e.screen_rows) ∧
    ((e.setup_scroll).coloff ≤ (e.setup_scroll).rx ∧
      (e.setup_scroll).rx < (e.setup_scroll).coloff + e.screen_cols) ∧
    (e.rowoff ≤ e.cy ∧ e.cy < e.rowoff + e.screen_rows →
      (e.setup_scroll).rowoff = e.rowoff) ∧
    (e.coloff ≤ (e.setup_scroll).rx ∧ (e.setup_scroll).rx < e.coloff + e.screen_cols →
      (e.setup_scroll).coloff = e.coloff) := by
  simp only [Editor.setup_scroll]
  split_ifs <;> omega

/-- Claim C6, witness: the invariant at a concrete scrolled state. -/
theorem setup_scroll_viewport_invariant_witness :
    (((edRowAB.setup_scroll).rowoff ≤ edRowAB.cy ∧
      edRowAB.cy < (edRowAB.setup_scroll).rowoff + edRowAB.screen_rows) ∧
    ((edRowAB.setup_scroll).coloff ≤ (edRowAB.setup_scroll).rx ∧
      (edRowAB.setup_scroll).rx < (edRowAB.setup_scroll).coloff + edRowAB.screen_cols) ∧
    (edRowAB.rowoff ≤ edRowAB.cy ∧ edRowAB.cy < edRowAB.rowoff + edRowAB.screen_rows →
      (edRowAB.setup_scroll).rowoff = edRowAB.rowoff) ∧
    (edRowAB.coloff ≤ (edRowAB.setup_scroll).rx ∧
        (edRowAB.setup_scroll).rx < edRowAB.coloff + edRowAB.screen_cols →
      (edRowAB.setup_scroll).coloff = edRowAB.coloff)) :=
  setup_scroll_viewport_invariant edRowAB (by decide) (by decide)

theorem rxStep_le (rx : Nat) (ch : Char) : rx ≤ rxStep rx ch := by
  unfold rxStep TAB_STOP
  split_ifs <;> omega

theorem foldl_rxStep_le (l : List Char) (init : Nat) : init ≤ l.foldl rxStep init := by
  induction l generalizing init with
  | nil => simp
  | cons c t ih => exact le_trans (rxStep_le init c) (ih _)

theorem renderAcc_snd_step (p : List Char × Nat) (c : Char) : (renderAcc p c).2 = rxStep p.2 c := by
  unfold renderAcc rxStep TAB_STOP
  split_ifs <;> simp <;> omega

theorem foldl_renderAcc_snd (cs : List Char) (p : List Char × Nat) :
    (cs.foldl renderAcc p).2 = cs.foldl rxStep p.2 := by
  induction cs generalizing p with
  | nil => rfl
  | cons c t ih => rw [List.foldl_cons, List.foldl_cons, ih, renderAcc_snd_step]

theorem foldl_renderAcc_len (cs : List Char) (p : List Char × Nat) (hp : p.2 = p.1.length) :
    (cs.foldl renderAcc p).2 = (cs.foldl renderAcc p).1.length := by
  induction cs generalizing p with
  | nil => exact hp
  | cons c t ih =>
    apply ih
    unfold renderAcc
    split_ifs <;> simp [hp]

/-- Claim C7: `rx_from_cx` is monotone in `cx`; a tab at render column
`r` advances the render column to the next multiple of `TAB_STOP` and
every other character advances it by exactly one; and the render cache
is derived by the same rule, so its total width equals
`rx_from_cx` at the full content length. -/
theorem rx_from_cx_spec :
    (∀ (r : Row) (cx1 cx2 : Nat), cx1 ≤ cx2 → r.rx_from_cx cx1 ≤ r.rx_from_cx cx2) ∧
    (∀ (r : Row) (cx : Nat) (ch : Char), r.buf[cx]? = some ch →
      r.rx_from_cx (cx + 1) =
        if ch = '\t' then TAB_STOP * (r.rx_from_cx cx / TAB_STOP + 1)
        else r.rx_from_cx cx + 1) ∧
    (∀ buf : List Char, (Row.new buf).render.length = (Row.new buf).rx_from_cx buf.length) := by
  refine ⟨?_, ?_, ?_⟩
  · intro r cx1 cx2 h
    unfold Row.rx_from_cx
    have hsplit : r.buf.take cx2 = r.buf.take cx1 ++ (r.buf.drop cx1).take (cx2 - cx1) := by
      rw [← List.take_add]
      congr 1
      omega
    rw [hsplit, List.foldl_append]
    exact foldl_rxStep_le _ _
  · intro r cx ch h
    unfold Row.rx_from_cx
    have hsplit : r.buf.take (cx + 1) = r.buf.take cx ++ [ch] := by
      rw [List.take_succ, h]
      rfl
    rw [hsplit, List.foldl_append]
    show rxStep ((r.buf.take cx).foldl rxStep 0) ch = _
    unfold rxStep TAB_STOP
    split_ifs <;> omega
  · intro buf
    show (updateRender buf).length = (buf.take buf.length).foldl rxStep 0
    rw [List.take_length]
    unfold updateRender
    rw [← foldl_renderAcc_len buf ([], 0) rfl, foldl_renderAcc_snd]

/-- Claim C7, witness: the three parts instantiated on the row "a\tb". -/
theorem rx_from_cx_spec_witness :
    ((Row.new ['a', '\t', 'b']).rx_from_cx 1 ≤ (Row.new ['a', '\t', 'b']).rx_from_cx 3) ∧
    ((Row.new ['a', '\t', 'b']).rx_from_cx 2 =
      if '\t' = '\t' then TAB_STOP * ((Row.new ['a', '\t', 'b']).rx_from_cx 1 / TAB_STOP + 1)
      else (Row.new ['a', '\t', 'b']).rx_from_cx 1 + 1) ∧
    (Row.new ['a', '\t', 'b']).render.length = (Row.new ['a', '\t', 'b']).rx_from_cx 3 :=
  ⟨rx_from_cx_spec.1 (Row.new ['a', '\t', 'b']) 1 3 (by decide),
   rx_from_cx_spec.2.1 (Row.new ['a', '\t', 'b']) 1 '\t' (by decide),
   rx_from_cx_spec.2.2 ['a', '\t', 'b']⟩

theorem foldl_save_out (rows : List Row) (acc : List Char) :
    rows.foldl (fun a r => a ++ r.buf ++ ['\n']) acc =
      acc ++ (rows.map (fun r => r.buf ++ ['\n'])).flatten := by
  induction rows generalizing acc with
  | nil => simp
  | cons r t ih =>
    rw [List.foldl_cons, ih]
    simp

theorem foldl_save_bytes (rows : List Row) (n : Nat) :
    rows.foldl (fun m r => m + (r.buf.length + 1)) n =
      n + ((rows.map (fun r => r.buf ++ ['\n'])).flatten).length := by
  induction rows generalizing n with
  | nil => simp
  | cons r t ih =>
    rw [List.foldl_cons, ih]
    simp
    omega

/-- Claim C10: with no associated file, `save` only installs the
"Cannot save unnamed buffer" message, leaving rows, cursor and dirty
flag untouched and writing nothing; with an associated file it writes
every row's content followed by one newline, reports the total byte
count in the status message, and clears the dirty flag. -/
theorem save_spec :
    (∀ e : Editor, e.file = none →
      e.save = ({ e with message := "Cannot save unnamed buffer" }, none)) ∧
    (∀ (e : Editor) (d : String), e.file = some d →
      (e.save).2 = some ((e.row.map (fun r => r.buf ++ ['\n'])).flatten) ∧
      (e.save).1.message =
        toString ((e.row.map (fun r => r.buf ++ ['\n'])).flatten).length ++
          " bytes written to " ++ d ∧
      (e.save).1.dirty = false ∧
      (e.save).1.row = e.row ∧ (e.save).1.cx = e.cx ∧ (e.save).1.cy = e.cy) := by
  constructor
  · intro e h
    unfold Editor.save
    rw [h]
  · intro e d h
    unfold Editor.save
    rw [h]
    refine ⟨?_, ?_, rfl, rfl, rfl, rfl⟩
    · dsimp only
      rw [foldl_save_out]
      rfl
    · dsimp only
      rw [foldl_save_bytes, Nat.zero_add]

theorem list_getD_append {α : Type*} (A : List α) (x : α) (C : List α) (d : α) :
    (A ++ x :: C).getD A.length d = x := by
  induction A with
  | nil => rfl
  | cons a t ih => simpa using ih

theorem list_getD_append_succ {α : Type*} (A : List α) (x y : α) (C : List α) (d : α) :
    (A ++ x :: y :: C).getD (A.length + 1) d = y := by
  induction A with
  | nil => rfl
  | cons a t ih => simpa using ih

theorem list_set_append {α : Type*} (A : List α) (x y : α) (C : List α) :
    (A ++ x :: C).set A.length y = A ++ y :: C := by
  induction A with
  | nil => rfl
  | cons a t ih => simpa using ih

theorem list_take_append_succ {α : Type*} (A : List α) (x : α) (C : List α) :
    (A ++ x :: C).take (A.length + 1) = A ++ [x] := by
  induction A with
  | nil => rfl
  | cons a t ih => simpa using ih

theorem list_drop_append_succ {α : Type*} (A : List α) (x : α) (C : List α) :
    (A ++ x :: C).drop (A.length + 1) = C := by
  induction A with
  | nil => rfl
  | cons a t ih => simpa using ih

theorem list_drop_append_two {α : Type*} (A : List α) (x y : α) (C : List α) :
    (A ++ x :: y :: C).drop (A.length + 1 + 1) = C := by
  induction A with
  | nil => rfl
  | cons a t ih => simpa using ih

/-- `insert_line` on a valid cursor row with the cursor strictly inside
the row: the row is truncated at the cursor and a new row holding the
tail is inserted right below. -/
theorem insert_line_split (e : Editor) (A C : List Row) (R : Row)
    (hrow : e.row = A ++ R :: C) (hcy : e.cy = A.length) (hx : e.cx < R.buf.length) :
    e.insert_line =
      { e with
        row := A ++ R.truncate e.cx :: Row.new (R.buf.drop e.cx) :: C,
        cy := e.cy + 1, cx := 0 } := by
  unfold Editor.insert_line
  rw [hrow, hcy]
  rw [if_neg (by simp), if_neg (by rw [list_getD_append]; omega)]
  simp only [list_getD_append, list_set_append, list_take_append_succ, list_drop_append_succ]
  simp [List.append_assoc]

/-- `insert_line` on a valid cursor row with the cursor at or past the
row end: a blank row is inserted right below. -/
theorem insert_line_append (e : Editor) (A C : List Row) (R : Row)
    (hrow : e.row = A ++ R :: C) (hcy : e.cy = A.length) (hx : e.cx ≥ R.buf.length) :
    e.insert_line =
      { e with row := A ++ R :: Row.new [] :: C, cy := e.cy + 1, cx := 0 } := by
  unfold Editor.insert_line
  rw [hrow, hcy]
  rw [if_neg (by simp), if_pos (by rw [list_getD_append]; omega)]
  simp only [list_take_append_succ, list_drop_append_succ]
  simp [List.append_assoc]

/-- `delete_char` at column 0 of a row that has a predecessor: the row
is removed and its content appended onto the row above (the join). -/
theorem delete_char_join (e : Editor) (A C : List Row) (R S : Row)
    (hrow : e.row = A ++ R :: S :: C) (hcy : e.cy = A.length + 1) (hcx : e.cx = 0) :
    e.delete_char =
      { e with
        row := A ++ R.append S.buf :: C,
        cy := A.length, cx := R.buf.length, dirty := true } := by
  unfold Editor.delete_char
  rw [hrow, hcy, hcx]
  rw [if_neg (by simp), if_neg (by omega)]
  simp only [Nat.add_sub_cancel, list_getD_append, list_getD_append_succ,
    list_take_append_succ, list_drop_append_two]
  have h1 : (A ++ [R]) ++ C = A ++ R :: C := by simp
  rw [h1, list_getD_append, list_set_append]

/-- Claim C8: on a buffer `A ++ R :: C` with the cursor at row
`A.length` and a column within row `R`, the Enter operation
(`insert_line`, splitting the row) followed by backspace at column 0 of
the row below (`delete_char`, joining it back) restores the original
sequence of row contents and puts the cursor back on the original row. -/
theorem split_join_roundtrip (e : Editor) (A C : List Row) (R : Row)
    (hrow : e.row = A ++ R :: C) (hcy : e.cy = A.length) (hcx : e.cx ≤ R.buf.length) :
    ((e.insert_line).delete_char).row.map Row.buf = e.row.map Row.buf ∧
    ((e.insert_line).delete_char).cy = e.cy := by
  rcases Nat.lt_or_ge e.cx R.buf.length with hx | hx
  · have h1 := insert_line_split e A C R hrow hcy hx
    have h2 := delete_char_join (e.insert_line) A C (R.truncate e.cx)
      (Row.new (R.buf.drop e.cx)) (by rw [h1]) (by rw [h1, hcy]) (by rw [h1])
    have hbuf : ((R.truncate e.cx).append (Row.new (R.buf.drop e.cx)).buf).buf = R.buf := by
      show ((R.truncate e.cx).append (R.buf.drop e.cx)).buf = R.buf
      unfold Row.append Row.truncate
      rw [if_pos hx, if_neg (by rw [List.drop_eq_nil_iff]; omega)]
      exact List.take_append_drop e.cx R.buf
    rw [h2, hrow, hcy]
    constructor
    · simp [hbuf]
    · rfl
  · have hx2 : e.cx ≥ R.buf.length := hx
    have h1 := insert_line_append e A C R hrow hcy hx2
    have h2 := delete_char_join (e.insert_line) A C R (Row.new []) (by rw [h1])
      (by rw [h1, hcy]) (by rw [h1])
    have hbuf : (R.append (Row.new []).buf).buf = R.buf := by
      show (R.append []).buf = R.buf
      unfold Row.append
      rw [if_pos rfl]
    rw [h2, hrow, hcy]
    constructor
    · simp [hbuf]
    · rfl

/-- The spec's Enter scenario: buffer ["abc", "", "de"], cursor (0,3). -/
def edSplit : Editor :=
  { baseEditor with
    row := [Row.new ['a', 'b', 'c'], Row.new [], Row.new ['d', 'e']], cx := 3, cy := 0 }

/-- Claim C8, witness: the round-trip on the spec's scenario buffer. -/
theorem split_join_roundtrip_witness :
    ((edSplit.insert_line).delete_char).row.map Row.buf = edSplit.row.map Row.buf ∧
    ((edSplit.insert_line).delete_char).cy = edSplit.cy :=
  split_join_roundtrip edSplit [] [Row.new [], Row.new ['d', 'e']] (Row.new ['a', 'b', 'c'])
    rfl rfl (by decide)

/-- A dirty editor holding the rows "a" and "bb", associated to the
path P (the spec's save scenario). -/
def edSave : Editor :=
  { baseEditor with file := some "P", row := [Row.new ['a'], Row.new ['b', 'b']], dirty := true }

/-- Claim C10, witness: both branches at concrete states; saving
["a","bb"] to P writes "a\nbb\n" and reports 5 bytes. -/
theorem save_spec_witness :
    baseEditor.save = ({ baseEditor with message := "Cannot save unnamed buffer" }, none) ∧
    ((edSave.save).2 = some ((edSave.row.map (fun r => r.buf ++ ['\n'])).flatten) ∧
      (edSave.save).1.message =
        toString ((edSave.row.map (fun r => r.buf ++ ['\n'])).flatten).length ++
          " bytes written to " ++ "P" ∧
      (edSave.save).1.dirty = false ∧
      (edSave.save).1.row = edSave.row ∧ (edSave.save).1.cx = edSave.cx ∧
      (edSave.save).1.cy = edSave.cy) :=
  ⟨save_spec.1 baseEditor rfl, save_spec.2 edSave "P" rfl⟩
